import Mathlib

/-!
Verification of the MongoDB OAuth2 token store (`src/oauth2mongo.go`).

The store maps the oauth2 token-storage interface onto three MongoDB
collections (`oauth2_basic`, `oauth2_access`, `oauth2_refresh`).  We embed
the store shallowly:

* a MongoDB collection is an association list from `_id` keys to records;
  `InsertOne` on a duplicate `_id` is a write error (unique index on `_id`),
  `DeleteOne` removes the (unique) document with the key, `FindOne` is a
  key lookup and reports `ErrNoDocuments` when the key is absent;
* `time.Time` values are nonnegative nanosecond counts since the Unix
  epoch, `time.Duration` values are nonnegative nanosecond counts
  (`t.Add d` is `t + d`); `t.Second()` is the second within the minute;
* the JSON payload produced by `json.Marshal(info)` is modelled opaquely
  by the token-info value it encodes (`json.Unmarshal` recovers it); since
  `json.Marshal` is an external call whose failure the store only reacts
  to, `Create` receives the marshal outcome as an argument;
* `log.Fatal` terminates the process: a call that can reach it returns a
  dedicated `died` outcome carrying the database state at termination
  (the database is external and survives the process).
-/

namespace Oauth2Mongo

/-- The getters of `oauth2.TokenInfo` that the store reads
(`GetCode`, `GetAccess`, `GetRefresh` and the corresponding
`CreateAt`/`ExpiresIn` pairs).  Times are nanoseconds since the Unix
epoch; durations are nanoseconds. -/
structure TokenInfo where
  code : String
  access : String
  refresh : String
  codeCreateAt : Nat
  codeExpiresIn : Nat
  accessCreateAt : Nat
  accessExpiresIn : Nat
  refreshCreateAt : Nat
  refreshExpiresIn : Nat
deriving Repr, DecidableEq

/-- Go `time.Time.Second()` for a time of `t` nanoseconds since the Unix
epoch: the second offset within the minute, in `[0, 59]`. -/
def goSecond (t : Nat) : Nat := t / 1000000000 % 60

/-- The timestamp the source stores in `ExpiredAt`:
`time.Unix(0, exp.UnixNano()/int64(time.Millisecond))`, i.e. a `time.Time`
whose `UnixNano` is `exp / 1e6` (src/oauth2mongo.go:156-157,175,183,192). -/
def storedTime (t : Nat) : Nat := t / 1000000

/-- A document of the basic collection (`basicData`,
src/oauth2mongo.go:307-311): serialized payload and expiry. -/
structure BasicRec where
  data : TokenInfo
  expiredAt : Nat
deriving Repr, DecidableEq

/-- A document of the access/refresh collections (`tokenData`,
src/oauth2mongo.go:313-317): reference to the basic record and expiry. -/
structure TokenRec where
  basicID : String
  expiredAt : Nat
deriving Repr, DecidableEq

/-- A MongoDB collection: an association list from `_id` to document. -/
abbrev Coll (α : Type) := List (String × α)

/-- `FindOne` by `_id` (src/oauth2mongo.go:242-245): the document with the
given key, or `none` (`mongo.ErrNoDocuments`). -/
def lookupK {α : Type} : Coll α → String → Option α
  | [], _ => none
  | (k2, v) :: rest, k => if k2 = k then some v else lookupK rest k

/-- The MongoDB `Collection.InsertOne` primitive: inserting a duplicate
`_id` is a write error (unique index on `_id`), reported as `none`. -/
def collInsert {α : Type} (c : Coll α) (k : String) (v : α) : Option (Coll α) :=
  match lookupK c k with
  | some _ => none
  | none => some ((k, v) :: c)

/-- The MongoDB `Collection.DeleteOne` primitive used by `DeleteByID`
(src/oauth2mongo.go:199-209): removes the single document with the key. -/
def collDelete {α : Type} : Coll α → String → Coll α
  | [], _ => []
  | (k2, v) :: rest, k => if k2 = k then rest else (k2, v) :: collDelete rest k

/-- The database state: the three collections (`BasicCName`,
`AccessCName`, `RefreshCName`). -/
structure Store where
  basic : Coll BasicRec
  access : Coll TokenRec
  refresh : Coll TokenRec
deriving Repr, DecidableEq

def emptyStore : Store := ⟨[], [], []⟩

/-- Outcome of the `InsertOne` helper of the repo (src/oauth2mongo.go:134-142):
on a backend write error it calls `log.Fatal(verr)`, which terminates the
process (the `err = verr; return` after it is unreachable), so the only
outcomes are success or process death. -/
inductive InsOut (α : Type) where
  | ok (c : Coll α)
  | fatal
deriving Repr, DecidableEq

/-- `InsertOne` (src/oauth2mongo.go:134-142). -/
def InsertOne {α : Type} (c : Coll α) (k : String) (v : α) : InsOut α :=
  match collInsert c k v with
  | some c2 => InsOut.ok c2
  | none => InsOut.fatal

/-- Outcome of `Create`: either a normal return (with the Go `err` result
and the database state) or process death inside `InsertOne`
(`log.Fatal`), carrying the database state at that point. -/
inductive CreateRes where
  | ret (err : Option String) (s : Store)
  | died (s : Store)
deriving Repr, DecidableEq

/-- The final value of the local `aexp` in `Create`
(src/oauth2mongo.go:161-168): `aexp := AccessCreateAt + AccessExpiresIn`;
when a refresh token is present and `aexp.Second() > rexp.Second()`
(seconds within the minute!) it is replaced by
`RefreshCreateAt + RefreshExpiresIn`. -/
def aexpOf (info : TokenInfo) : Nat :=
  let a := info.accessCreateAt + info.accessExpiresIn
  let r := info.refreshCreateAt + info.refreshExpiresIn
  if info.refresh ≠ "" ∧ goSecond a > goSecond r then r else a

/-- The final value of the local `rexp` in `Create`
(src/oauth2mongo.go:162-164): the refresh expiry when a refresh token is
present, otherwise the access expiry. -/
def rexpOf (info : TokenInfo) : Nat :=
  if info.refresh ≠ "" then info.refreshCreateAt + info.refreshExpiresIn
  else info.accessCreateAt + info.accessExpiresIn

/-- `Create` (src/oauth2mongo.go:145-196).  `jr` is the outcome of the
external `json.Marshal(info)` call; `id` is the hex of the fresh
`objectid.New()`.  A failing marshal returns its error before any write.
Each write goes through `InsertOne`, whose failure kills the process. -/
def Create (s : Store) (info : TokenInfo) (jr : Except String TokenInfo)
    (id : String) : CreateRes :=
  match jr with
  | Except.error e => CreateRes.ret (some e) s
  | Except.ok jv =>
    match (if info.code ≠ "" then
        InsertOne s.basic info.code
          ⟨jv, storedTime (info.codeCreateAt + info.codeExpiresIn)⟩
      else InsOut.ok s.basic) with
    | InsOut.fatal => CreateRes.died s
    | InsOut.ok b1 =>
      match InsertOne b1 id ⟨jv, storedTime (rexpOf info)⟩ with
      | InsOut.fatal => CreateRes.died { s with basic := b1 }
      | InsOut.ok b2 =>
        match (if info.access ≠ "" then
            InsertOne s.access info.access ⟨id, storedTime (aexpOf info)⟩
          else InsOut.ok s.access) with
        | InsOut.fatal => CreateRes.died { s with basic := b2 }
        | InsOut.ok a1 =>
          match (if info.refresh ≠ "" then
              InsertOne s.refresh info.refresh ⟨id, storedTime (rexpOf info)⟩
            else InsOut.ok s.refresh) with
          | InsOut.fatal => CreateRes.died { s with basic := b2, access := a1 }
          | InsOut.ok r1 =>
            CreateRes.ret none { basic := b2, access := a1, refresh := r1 }

/-- `RemoveByCode` (src/oauth2mongo.go:212-219): `DeleteByID` on the basic
collection; the delete itself cannot fail in the pure model, so `err` is
always nil. -/
def RemoveByCode (s : Store) (code : String) : Store :=
  { s with basic := collDelete s.basic code }

/-- `RemoveByAccess` (src/oauth2mongo.go:222-229). -/
def RemoveByAccess (s : Store) (access : String) : Store :=
  { s with access := collDelete s.access access }

/-- `RemoveByRefresh` (src/oauth2mongo.go:232-239). -/
def RemoveByRefresh (s : Store) (refresh : String) : Store :=
  { s with refresh := collDelete s.refresh refresh }

/-- `getData` (src/oauth2mongo.go:247-265): `FindByID` on the basic
collection; `ErrNoDocuments` is normalized to `(nil, nil)`; otherwise the
payload is deserialized (which succeeds on the well-formed payloads the
store writes) and returned.  The result pair is the Go pair `(ti, err)`. -/
def getData (s : Store) (basicID : String) :
    Option TokenInfo × Option String :=
  match lookupK s.basic basicID with
  | none => (none, none)
  | some bd => (some bd.data, none)

/-- `getBasicID` (src/oauth2mongo.go:267-279): `FindByID` on the given
token collection; `ErrNoDocuments` leaves `basicID` as `""` with nil
error; otherwise the `BasicID` reference is returned. -/
def getBasicID (c : Coll TokenRec) (token : String) :
    String × Option String :=
  match lookupK c token with
  | none => ("", none)
  | some td => (td.basicID, none)

/-- `GetByCode` (src/oauth2mongo.go:282-285). -/
def GetByCode (s : Store) (code : String) : Option TokenInfo × Option String :=
  getData s code

/-- `GetByAccess` (src/oauth2mongo.go:288-295): resolve the access record
to a basic ID, return early when that errored with an empty ID, otherwise
read the basic record. -/
def GetByAccess (s : Store) (access : String) :
    Option TokenInfo × Option String :=
  let r := getBasicID s.access access
  if (r.2).isSome ∧ r.1 = "" then (none, r.2)
  else getData s r.1

/-- `GetByRefresh` (src/oauth2mongo.go:298-305). -/
def GetByRefresh (s : Store) (refresh : String) :
    Option TokenInfo × Option String :=
  let r := getBasicID s.refresh refresh
  if (r.2).isSome ∧ r.1 = "" then (none, r.2)
  else getData s r.1

/-! ### Lemmas about the collection model -/

theorem lookupK_cons_self {α : Type} (k : String) (v : α) (rest : Coll α) :
    lookupK ((k, v) :: rest) k = some v := by
  simp [lookupK]

theorem lookupK_cons_ne {α : Type} (k2 k : String) (v : α) (rest : Coll α)
    (h : k2 ≠ k) : lookupK ((k2, v) :: rest) k = lookupK rest k := by
  simp [lookupK, h]

theorem InsertOne_of_fresh {α : Type} (c : Coll α) (k : String) (v : α)
    (h : lookupK c k = none) : InsertOne c k v = InsOut.ok ((k, v) :: c) := by
  simp [InsertOne, collInsert, h]

theorem insStep {α : Type} (c : Coll α) (k : String) (v : α) (p : Prop)
    [Decidable p] (h : p → lookupK c k = none) :
    (if p then InsertOne c k v else InsOut.ok c) =
      InsOut.ok (if p then (k, v) :: c else c) := by
  by_cases hp : p
  · simp only [if_pos hp, InsertOne_of_fresh c k v (h hp)]
  · simp only [if_neg hp]

/-- Characterization of a successful `Create`: when the generated id and
the supplied keys are fresh (which MongoDB guarantees for `objectid.New`
and which holds for keys not previously created), `Create` returns nil
error and the three collections extended exactly as in
src/oauth2mongo.go:151-194. -/
theorem Create_ok_eq (s : Store) (info jv : TokenInfo) (id : String)
    (hcode : info.code ≠ "" → lookupK s.basic info.code = none)
    (hid : lookupK s.basic id = none) (hidcode : info.code ≠ id)
    (hacc : info.access ≠ "" → lookupK s.access info.access = none)
    (href : info.refresh ≠ "" → lookupK s.refresh info.refresh = none) :
    Create s info (Except.ok jv) id = CreateRes.ret none
      { basic := (id, ⟨jv, storedTime (rexpOf info)⟩) ::
          (if info.code ≠ "" then
            (info.code,
              (⟨jv, storedTime (info.codeCreateAt + info.codeExpiresIn)⟩ : BasicRec)) ::
              s.basic
          else s.basic),
        access := if info.access ≠ "" then
            (info.access, (⟨id, storedTime (aexpOf info)⟩ : TokenRec)) :: s.access
          else s.access,
        refresh := if info.refresh ≠ "" then
            (info.refresh, (⟨id, storedTime (rexpOf info)⟩ : TokenRec)) :: s.refresh
          else s.refresh } := by
  have e1 := insStep s.basic info.code
    (⟨jv, storedTime (info.codeCreateAt + info.codeExpiresIn)⟩ : BasicRec)
    (info.code ≠ "") hcode
  have hid2 : lookupK (if info.code ≠ "" then
      (info.code,
        (⟨jv, storedTime (info.codeCreateAt + info.codeExpiresIn)⟩ : BasicRec)) ::
        s.basic
    else s.basic) id = none := by
    by_cases hc : info.code ≠ ""
    · rw [if_pos hc, lookupK_cons_ne _ _ _ _ hidcode]; exact hid
    · rw [if_neg hc]; exact hid
  have e2 := InsertOne_of_fresh _ id (⟨jv, storedTime (rexpOf info)⟩ : BasicRec) hid2
  have e3 := insStep s.access info.access
    (⟨id, storedTime (aexpOf info)⟩ : TokenRec) (info.access ≠ "") hacc
  have e4 := insStep s.refresh info.refresh
    (⟨id, storedTime (rexpOf info)⟩ : TokenRec) (info.refresh ≠ "") href
  simp only [Create, e1, e2, e3, e4]

/-- Adding a whole number of minutes to a timestamp does not change its
second within the minute. -/
theorem goSecond_add_minutes (t k : Nat) :
    goSecond (t + k * 60000000000) = goSecond t := by
  unfold goSecond
  omega

/-- C8: for every token-info value whose serialization fails, `Create`
returns the serialization error having performed no write to any
collection (src/oauth2mongo.go:146-149 return before the first
`InsertOne`). -/
theorem Create_marshal_error_no_write (s : Store) (info : TokenInfo)
    (e : String) (id : String) :
    Create s info (Except.error e) id = CreateRes.ret (some e) s := rfl

/-- C1 counterexample input: access ttl 30 s and refresh ttl 70 s, both
created at the epoch.  `aexp.Second() > rexp.Second()` compares the
seconds within the minute (30 against 10), so `Create` replaces `aexp`
by the refresh expiry, the larger of the two timestamps. -/
def infoSec : TokenInfo :=
  { code := "", access := "a1", refresh := "r1",
    codeCreateAt := 0, codeExpiresIn := 0,
    accessCreateAt := 0, accessExpiresIn := 30000000000,
    refreshCreateAt := 0, refreshExpiresIn := 70000000000 }

/-- C1, counterexample: with both tokens present, access expiry 30 s and
refresh expiry 70 s, the access record written by `Create` carries the
refresh expiry (70 s), which is not the smaller of the two expiries. -/
theorem Create_access_expiry_not_min :
    Create emptyStore infoSec (Except.ok infoSec) "id1" = CreateRes.ret none
      { basic := [("id1", ⟨infoSec, storedTime 70000000000⟩)],
        access := [("a1", ⟨"id1", storedTime 70000000000⟩)],
        refresh := [("r1", ⟨"id1", storedTime 70000000000⟩)] }
    ∧ storedTime 70000000000 ≠
        storedTime (min (0 + 30000000000) (0 + 70000000000)) := by
  decide

/-- C1 (amended): for every token-info with both an access and a refresh
token, the access record written by `Create` has expiry equal to the
refresh expiry when the access expiry exceeds the refresh expiry in
seconds within the minute (the `Second()` comparison of
src/oauth2mongo.go:165), else the access expiry; in particular, for
access ttl 1h and refresh ttl 24h both created at the same instant, the
recorded expiry equals creation + 1h, the smaller of the two. -/
theorem Create_access_record_expiry (s : Store) (info jv : TokenInfo)
    (id : String) (s2 : Store)
    (hcode : info.code ≠ "" → lookupK s.basic info.code = none)
    (hid : lookupK s.basic id = none) (hidcode : info.code ≠ id)
    (hacc : info.access ≠ "" → lookupK s.access info.access = none)
    (href : info.refresh ≠ "" → lookupK s.refresh info.refresh = none)
    (ha : info.access ≠ "") (hr : info.refresh ≠ "")
    (hres : Create s info (Except.ok jv) id = CreateRes.ret none s2) :
    lookupK s2.access info.access = some ⟨id, storedTime
        (if goSecond (info.accessCreateAt + info.accessExpiresIn) >
            goSecond (info.refreshCreateAt + info.refreshExpiresIn)
          then info.refreshCreateAt + info.refreshExpiresIn
          else info.accessCreateAt + info.accessExpiresIn)⟩
    ∧ (info.accessExpiresIn = 3600000000000 →
        info.refreshExpiresIn = 86400000000000 →
        info.accessCreateAt = info.refreshCreateAt →
        lookupK s2.access info.access =
          some ⟨id, storedTime (info.accessCreateAt + 3600000000000)⟩) := by
  rw [Create_ok_eq s info jv id hcode hid hidcode hacc href] at hres
  injection hres with h1 h2
  subst h2
  constructor
  · simp [if_pos ha, lookupK_cons_self, aexpOf, hr]
  · intro hae hre hca
    have h60a : goSecond (info.accessCreateAt + info.accessExpiresIn) =
        goSecond info.accessCreateAt := by
      rw [hae, show (3600000000000 : Nat) = 60 * 60000000000 by norm_num,
        goSecond_add_minutes]
    have h60r : goSecond (info.refreshCreateAt + info.refreshExpiresIn) =
        goSecond info.accessCreateAt := by
      rw [hre, ← hca, show (86400000000000 : Nat) = 1440 * 60000000000 by norm_num,
        goSecond_add_minutes]
    have hc2 : ¬ (goSecond (info.refreshCreateAt + info.refreshExpiresIn) <
        goSecond (info.accessCreateAt + info.accessExpiresIn)) := by
      rw [h60a, h60r]; exact lt_irrefl _
    have hc3 : ¬ (goSecond (info.refreshCreateAt + info.refreshExpiresIn) <
        goSecond (info.accessCreateAt + 3600000000000)) := by
      rw [← hae]; exact hc2
    simp [if_pos ha, lookupK_cons_self, aexpOf, hr, hc2, hc3, hae]

/-- Concrete token-info used by witnesses: code, access and refresh all
present; access ttl 1h, refresh ttl 24h, both created at t = 5 ns. -/
def infoW : TokenInfo :=
  { code := "c0", access := "a0", refresh := "r0",
    codeCreateAt := 0, codeExpiresIn := 600000000000,
    accessCreateAt := 5, accessExpiresIn := 3600000000000,
    refreshCreateAt := 5, refreshExpiresIn := 86400000000000 }

/-- The store produced by `Create emptyStore infoW (ok infoW) "x0"`. -/
def storeW : Store :=
  { basic := [("x0", ⟨infoW, storedTime 86400000000005⟩),
              ("c0", ⟨infoW, storedTime 600000000000⟩)],
    access := [("a0", ⟨"x0", storedTime 3600000000005⟩)],
    refresh := [("r0", ⟨"x0", storedTime 86400000000005⟩)] }

/-- Witness for the amended C1 theorem at the concrete input `infoW`. -/
theorem Create_access_record_expiry_witness :
    lookupK storeW.access infoW.access = some ⟨"x0", storedTime
        (if goSecond (infoW.accessCreateAt + infoW.accessExpiresIn) >
            goSecond (infoW.refreshCreateAt + infoW.refreshExpiresIn)
          then infoW.refreshCreateAt + infoW.refreshExpiresIn
          else infoW.accessCreateAt + infoW.accessExpiresIn)⟩
    ∧ (infoW.accessExpiresIn = 3600000000000 →
        infoW.refreshExpiresIn = 86400000000000 →
        infoW.accessCreateAt = infoW.refreshCreateAt →
        lookupK storeW.access infoW.access =
          some ⟨"x0", storedTime (infoW.accessCreateAt + 3600000000000)⟩) :=
  Create_access_record_expiry emptyStore infoW infoW "x0" storeW
    (fun _ => rfl) rfl (by decide) (fun _ => rfl) (fun _ => rfl)
    (by decide) (by decide) (by decide)

/-- A key that does not occur in a collection looks up to `none`. -/
theorem lookupK_eq_none_of_notMem {α : Type} (c : Coll α) (k : String)
    (h : k ∉ c.map Prod.fst) : lookupK c k = none := by
  induction c with
  | nil => rfl
  | cons hd tl ih =>
    obtain ⟨kh, vh⟩ := hd
    simp only [List.map_cons, List.mem_cons, not_or] at h
    rw [lookupK, if_neg (fun he => h.1 he.symm)]
    exact ih h.2

/-- `DeleteOne` does not touch documents with a different key. -/
theorem collDelete_lookup_ne {α : Type} (c : Coll α) (k k2 : String)
    (h : k2 ≠ k) : lookupK (collDelete c k) k2 = lookupK c k2 := by
  induction c with
  | nil => rfl
  | cons hd tl ih =>
    obtain ⟨kh, vh⟩ := hd
    by_cases hk : kh = k
    · subst hk
      rw [collDelete, if_pos rfl, lookupK, if_neg (fun he => h he.symm)]
    · rw [collDelete, if_neg hk, lookupK, lookupK]
      by_cases hk2 : kh = k2
      · rw [if_pos hk2, if_pos hk2]
      · rw [if_neg hk2, if_neg hk2, ih]

/-- On a collection with unique `_id` keys (as MongoDB enforces),
`DeleteOne` leaves no document with the deleted key. -/
theorem collDelete_lookup_self {α : Type} (c : Coll α) (k : String)
    (h : (c.map Prod.fst).Nodup) : lookupK (collDelete c k) k = none := by
  induction c with
  | nil => rfl
  | cons hd tl ih =>
    obtain ⟨kh, vh⟩ := hd
    simp only [List.map_cons, List.nodup_cons] at h
    by_cases hk : kh = k
    · subst hk
      rw [collDelete, if_pos rfl]
      exact lookupK_eq_none_of_notMem tl kh h.1
    · rw [collDelete, if_neg hk, lookupK, if_neg hk]
      exact ih h.2

/-- A successful `InsertOne` preserves every existing binding. -/
theorem InsertOne_preserves {α : Type} (c : Coll α) (k1 : String) (v1 : α)
    (c2 : Coll α) (k : String) (v : α) (h : InsertOne c k1 v1 = InsOut.ok c2)
    (hk : lookupK c k = some v) : lookupK c2 k = some v := by
  unfold InsertOne collInsert at h
  cases hl : lookupK c k1 with
  | some w => rw [hl] at h; cases h
  | none =>
    rw [hl] at h
    injection h with h2
    subst h2
    have hne : k1 ≠ k := fun he => by rw [he, hk] at hl; cases hl
    rw [lookupK_cons_ne _ _ _ _ hne]
    exact hk

/-- A successful conditional `InsertOne` step preserves every existing
binding. -/
theorem insStep_preserves {α : Type} (c : Coll α) (k1 : String) (v1 : α)
    (p : Prop) [Decidable p] (c2 : Coll α) (k : String) (v : α)
    (h : (if p then InsertOne c k1 v1 else InsOut.ok c) = InsOut.ok c2)
    (hk : lookupK c k = some v) : lookupK c2 k = some v := by
  by_cases hp : p
  · rw [if_pos hp] at h
    exact InsertOne_preserves c k1 v1 c2 k v h hk
  · rw [if_neg hp] at h
    injection h with h2
    subst h2
    exact hk

/-- The database state when `Create` finishes, whether it returns or the
process dies inside `InsertOne` (the database is external and survives
the process). -/
def endState : CreateRes → Store
  | CreateRes.ret _ s => s
  | CreateRes.died s => s

/-- Whatever the outcome of `Create` — normal return, marshal error, or
process death on a write error — every record present beforehand is
still present unchanged: `Create` only ever inserts fresh keys. -/
theorem Create_preserves (s : Store) (info : TokenInfo)
    (jr : Except String TokenInfo) (id k : String) :
    (∀ vb : BasicRec, lookupK s.basic k = some vb →
      lookupK (endState (Create s info jr id)).basic k = some vb)
    ∧ (∀ vt : TokenRec, lookupK s.access k = some vt →
      lookupK (endState (Create s info jr id)).access k = some vt)
    ∧ (∀ vt : TokenRec, lookupK s.refresh k = some vt →
      lookupK (endState (Create s info jr id)).refresh k = some vt) := by
  cases jr with
  | error e => exact ⟨fun _ h => h, fun _ h => h, fun _ h => h⟩
  | ok jv =>
    cases h1 : (if info.code ≠ "" then
        InsertOne s.basic info.code
          ⟨jv, storedTime (info.codeCreateAt + info.codeExpiresIn)⟩
      else InsOut.ok s.basic) with
    | fatal =>
      simp only [Create, h1, endState]
      exact ⟨fun _ h => h, fun _ h => h, fun _ h => h⟩
    | ok b1 =>
      cases h2 : InsertOne b1 id ⟨jv, storedTime (rexpOf info)⟩ with
      | fatal =>
        simp only [Create, h1, h2, endState]
        exact ⟨fun vb h => insStep_preserves _ _ _ _ _ _ _ h1 h,
          fun _ h => h, fun _ h => h⟩
      | ok b2 =>
        have pb : ∀ vb : BasicRec, lookupK s.basic k = some vb →
            lookupK b2 k = some vb := fun vb h =>
          InsertOne_preserves _ _ _ _ _ _ h2 (insStep_preserves _ _ _ _ _ _ _ h1 h)
        cases h3 : (if info.access ≠ "" then
            InsertOne s.access info.access ⟨id, storedTime (aexpOf info)⟩
          else InsOut.ok s.access) with
        | fatal =>
          simp only [Create, h1, h2, h3, endState]
          exact ⟨pb, fun _ h => h, fun _ h => h⟩
        | ok a1 =>
          have pa : ∀ vt : TokenRec, lookupK s.access k = some vt →
              lookupK a1 k = some vt := fun vt h =>
            insStep_preserves _ _ _ _ _ _ _ h3 h
          cases h4 : (if info.refresh ≠ "" then
              InsertOne s.refresh info.refresh ⟨id, storedTime (rexpOf info)⟩
            else InsOut.ok s.refresh) with
          | fatal =>
            simp only [Create, h1, h2, h3, h4, endState]
            exact ⟨pb, pa, fun _ h => h⟩
          | ok r1 =>
            simp only [Create, h1, h2, h3, h4, endState]
            exact ⟨pb, pa, fun vt h => insStep_preserves _ _ _ _ _ _ _ h4 h⟩

/-- C2 counterexample input: refresh expiry (50 s) strictly earlier
than access expiry (100 s), both tokens present. -/
def infoRexp : TokenInfo :=
  { code := "", access := "a2", refresh := "r2",
    codeCreateAt := 0, codeExpiresIn := 0,
    accessCreateAt := 0, accessExpiresIn := 100000000000,
    refreshCreateAt := 0, refreshExpiresIn := 50000000000 }

/-- C2, counterexample: with refresh expiry (50 s) earlier than access
expiry (100 s), the generated-key basic record written by `Create`
carries the refresh expiry, which is not the later of the two expiries:
the basic record does not outlive the access record. -/
theorem Create_basic_expiry_not_max :
    Create emptyStore infoRexp (Except.ok infoRexp) "id2" = CreateRes.ret none
      { basic := [("id2", ⟨infoRexp, storedTime 50000000000⟩)],
        access := [("a2", ⟨"id2", storedTime 100000000000⟩)],
        refresh := [("r2", ⟨"id2", storedTime 50000000000⟩)] }
    ∧ storedTime 50000000000 ≠
        storedTime (max (0 + 100000000000) (0 + 50000000000)) := by
  decide

/-- C2 (amended): the generated-key basic record written by `Create` has
expiry equal to refresh-creation + refresh-ttl whenever a refresh token
is present — which is the later of the two expiries only when the
refresh expiry is at least the access expiry — and equal to
access-creation + access-ttl when no refresh token is present
(src/oauth2mongo.go:161-176). -/
theorem Create_basic_record_expiry (s : Store) (info jv : TokenInfo)
    (id : String) (s2 : Store)
    (hcode : info.code ≠ "" → lookupK s.basic info.code = none)
    (hid : lookupK s.basic id = none) (hidcode : info.code ≠ id)
    (hacc : info.access ≠ "" → lookupK s.access info.access = none)
    (href : info.refresh ≠ "" → lookupK s.refresh info.refresh = none)
    (hres : Create s info (Except.ok jv) id = CreateRes.ret none s2) :
    lookupK s2.basic id = some ⟨jv, storedTime
      (if info.refresh ≠ "" then info.refreshCreateAt + info.refreshExpiresIn
        else info.accessCreateAt + info.accessExpiresIn)⟩ := by
  rw [Create_ok_eq s info jv id hcode hid hidcode hacc href] at hres
  injection hres with h1 h2
  subst h2
  simp [lookupK_cons_self, rexpOf]

/-- Witness for the amended C2 theorem at the concrete input `infoW`. -/
theorem Create_basic_record_expiry_witness :
    lookupK storeW.basic "x0" = some ⟨infoW, storedTime
      (if infoW.refresh ≠ "" then infoW.refreshCreateAt + infoW.refreshExpiresIn
        else infoW.accessCreateAt + infoW.accessExpiresIn)⟩ :=
  Create_basic_record_expiry emptyStore infoW infoW "x0" storeW
    (fun _ => rfl) rfl (by decide) (fun _ => rfl) (fun _ => rfl) (by decide)

/-- C7: for every token-info with a non-empty code, `Create` writes a
basic record keyed by the code whose payload is the serialized
token-info and whose stored expiry is code-creation + code-ttl
(src/oauth2mongo.go:151-159). -/
theorem Create_code_record (s : Store) (info jv : TokenInfo)
    (id : String) (s2 : Store)
    (hcode : info.code ≠ "" → lookupK s.basic info.code = none)
    (hid : lookupK s.basic id = none) (hidcode : info.code ≠ id)
    (hacc : info.access ≠ "" → lookupK s.access info.access = none)
    (href : info.refresh ≠ "" → lookupK s.refresh info.refresh = none)
    (hc : info.code ≠ "")
    (hres : Create s info (Except.ok jv) id = CreateRes.ret none s2) :
    lookupK s2.basic info.code =
      some ⟨jv, storedTime (info.codeCreateAt + info.codeExpiresIn)⟩ := by
  rw [Create_ok_eq s info jv id hcode hid hidcode hacc href] at hres
  injection hres with h1 h2
  subst h2
  simp [hc, lookupK, Ne.symm hidcode]

/-- Witness for the C7 theorem at the concrete input `infoW`. -/
theorem Create_code_record_witness :
    lookupK storeW.basic infoW.code =
      some ⟨infoW, storedTime (infoW.codeCreateAt + infoW.codeExpiresIn)⟩ :=
  Create_code_record emptyStore infoW infoW "x0" storeW
    (fun _ => rfl) rfl (by decide) (fun _ => rfl) (fun _ => rfl)
    (by decide) (by decide)

/-- C6: `Create` writes an access record keyed by the access token and
referencing the generated identifier if and only if the access token is
non-empty; when the access token is absent the access collection is
unchanged (the guard at src/oauth2mongo.go:178). -/
theorem Create_access_record_guard (s : Store) (info jv : TokenInfo)
    (id : String) (s2 : Store)
    (hcode : info.code ≠ "" → lookupK s.basic info.code = none)
    (hid : lookupK s.basic id = none) (hidcode : info.code ≠ id)
    (hacc : info.access ≠ "" → lookupK s.access info.access = none)
    (href : info.refresh ≠ "" → lookupK s.refresh info.refresh = none)
    (hres : Create s info (Except.ok jv) id = CreateRes.ret none s2) :
    (info.access ≠ "" →
      lookupK s2.access info.access = some ⟨id, storedTime (aexpOf info)⟩)
    ∧ (info.access = "" → s2.access = s.access) := by
  rw [Create_ok_eq s info jv id hcode hid hidcode hacc href] at hres
  injection hres with h1 h2
  subst h2
  constructor
  · intro ha
    simp [ha, lookupK_cons_self]
  · intro ha
    simp [ha]

/-- Witness for the C6 theorem at the concrete input `infoW`. -/
theorem Create_access_record_guard_witness :
    (infoW.access ≠ "" →
      lookupK storeW.access infoW.access = some ⟨"x0", storedTime (aexpOf infoW)⟩)
    ∧ (infoW.access = "" → storeW.access = emptyStore.access) :=
  Create_access_record_guard emptyStore infoW infoW "x0" storeW
    (fun _ => rfl) rfl (by decide) (fun _ => rfl) (fun _ => rfl) (by decide)

/-- C3: for every token-info with a non-empty refresh token, `Create`
writes a refresh record keyed by the refresh token into the refresh
collection, referencing the generated identifier
(src/oauth2mongo.go:187-194); afterwards `GetByAccess` and
`GetByRefresh` both resolve to the same underlying payload. -/
theorem Create_refresh_record_resolves (s : Store) (info jv : TokenInfo)
    (id : String) (s2 : Store)
    (hcode : info.code ≠ "" → lookupK s.basic info.code = none)
    (hid : lookupK s.basic id = none) (hidcode : info.code ≠ id)
    (hacc : info.access ≠ "" → lookupK s.access info.access = none)
    (href : info.refresh ≠ "" → lookupK s.refresh info.refresh = none)
    (ha : info.access ≠ "") (hr : info.refresh ≠ "")
    (hres : Create s info (Except.ok jv) id = CreateRes.ret none s2) :
    lookupK s2.refresh info.refresh = some ⟨id, storedTime (rexpOf info)⟩
    ∧ GetByAccess s2 info.access = (some jv, none)
    ∧ GetByRefresh s2 info.refresh = (some jv, none) := by
  rw [Create_ok_eq s info jv id hcode hid hidcode hacc href] at hres
  injection hres with h1 h2
  subst h2
  refine ⟨?_, ?_, ?_⟩
  · simp [hr, lookupK_cons_self]
  · simp [GetByAccess, getBasicID, getData, ha, hr, lookupK]
  · simp [GetByRefresh, getBasicID, getData, ha, hr, lookupK]

/-- Witness for the C3 theorem at the concrete input `infoW`. -/
theorem Create_refresh_record_resolves_witness :
    lookupK storeW.refresh infoW.refresh = some ⟨"x0", storedTime (rexpOf infoW)⟩
    ∧ GetByAccess storeW infoW.access = (some infoW, none)
    ∧ GetByRefresh storeW infoW.refresh = (some infoW, none) :=
  Create_refresh_record_resolves emptyStore infoW infoW "x0" storeW
    (fun _ => rfl) rfl (by decide) (fun _ => rfl) (fun _ => rfl)
    (by decide) (by decide) (by decide)

/-- C4: lookups on keys that were never created return an empty result
and a nil error at every stage of resolution: a code missing from the
basic collection, an access or refresh token missing from its reference
collection (the empty `basicID` then misses the basic collection, which
never stores a record keyed by the empty string), and a reference that
resolves to a missing basic record (src/oauth2mongo.go:247-305). -/
theorem Get_missing_key_empty (s : Store) (k : String)
    (hempty : lookupK s.basic "" = none) :
    (lookupK s.basic k = none → GetByCode s k = (none, none))
    ∧ (lookupK s.access k = none → GetByAccess s k = (none, none))
    ∧ (lookupK s.refresh k = none → GetByRefresh s k = (none, none))
    ∧ (∀ td : TokenRec, lookupK s.access k = some td →
        lookupK s.basic td.basicID = none → GetByAccess s k = (none, none))
    ∧ (∀ td : TokenRec, lookupK s.refresh k = some td →
        lookupK s.basic td.basicID = none → GetByRefresh s k = (none, none)) := by
  refine ⟨?_, ?_, ?_, ?_, ?_⟩
  · intro h
    simp [GetByCode, getData, h]
  · intro h
    simp [GetByAccess, getBasicID, getData, h, hempty]
  · intro h
    simp [GetByRefresh, getBasicID, getData, h, hempty]
  · intro td h hb
    simp [GetByAccess, getBasicID, getData, h, hb]
  · intro td h hb
    simp [GetByRefresh, getBasicID, getData, h, hb]

/-- A store with dangling references, for the C4 witness: the access and
refresh records point at a basic record that is no longer present. -/
def storeDangling : Store :=
  { basic := [],
    access := [("aX", ⟨"gone", 0⟩)],
    refresh := [("rX", ⟨"gone", 0⟩)] }

/-- Witness for the C4 theorem on a store with a dangling reference. -/
theorem Get_missing_key_empty_witness :
    (lookupK storeDangling.basic "aX" = none →
      GetByCode storeDangling "aX" = (none, none))
    ∧ (lookupK storeDangling.access "aX" = none →
      GetByAccess storeDangling "aX" = (none, none))
    ∧ (lookupK storeDangling.refresh "aX" = none →
      GetByRefresh storeDangling "aX" = (none, none))
    ∧ (∀ td : TokenRec, lookupK storeDangling.access "aX" = some td →
        lookupK storeDangling.basic td.basicID = none →
        GetByAccess storeDangling "aX" = (none, none))
    ∧ (∀ td : TokenRec, lookupK storeDangling.refresh "aX" = some td →
        lookupK storeDangling.basic td.basicID = none →
        GetByRefresh storeDangling "aX" = (none, none)) :=
  Get_missing_key_empty storeDangling "aX" rfl

/-- Token-info whose access token collides with an existing access
record, for the C5 failing input. -/
def infoDup : TokenInfo :=
  { code := "", access := "aD", refresh := "",
    codeCreateAt := 0, codeExpiresIn := 0,
    accessCreateAt := 0, accessExpiresIn := 1000000000,
    refreshCreateAt := 0, refreshExpiresIn := 0 }

/-- A store that already holds the access key `"aD"`. -/
def storeDup : Store :=
  { basic := [], access := [("aD", ⟨"old", 7⟩)], refresh := [] }

/-- C5, evaluated at the failing input: a backend duplicate-key write
error inside `InsertOne` during `Create` is logged via `log.Fatal` and
terminates the process (`died`) instead of being returned to the
caller; the `err = verr; return` after `log.Fatal` in
src/oauth2mongo.go:136-140 is unreachable, and `Create` discards the
`InsertOne` error results (src/oauth2mongo.go:152,171,179,188) in any
case. -/
theorem Create_duplicate_access_kills_process :
    Create storeDup infoDup (Except.ok infoDup) "idZ" =
      CreateRes.died
        { basic := [("idZ", ⟨infoDup, storedTime 1000000000⟩)],
          access := [("aD", ⟨"old", 7⟩)], refresh := [] } := by
  decide

/-- C9: each `Remove` deletes only the record with the given key from
its own collection and leaves the other two collections unchanged
(src/oauth2mongo.go:212-239); in particular, after a `Create` with both
tokens, `RemoveByAccess` followed by `GetByAccess` reports not-found
while `GetByRefresh` for the same request still resolves. -/
theorem Remove_deletes_only_own_key (s : Store) (k : String)
    (hb : (s.basic.map Prod.fst).Nodup)
    (hacc : (s.access.map Prod.fst).Nodup)
    (href : (s.refresh.map Prod.fst).Nodup) :
    ((RemoveByCode s k).access = s.access
      ∧ (RemoveByCode s k).refresh = s.refresh
      ∧ lookupK (RemoveByCode s k).basic k = none
      ∧ ∀ k2, k2 ≠ k →
          lookupK (RemoveByCode s k).basic k2 = lookupK s.basic k2)
    ∧ ((RemoveByAccess s k).basic = s.basic
      ∧ (RemoveByAccess s k).refresh = s.refresh
      ∧ lookupK (RemoveByAccess s k).access k = none
      ∧ ∀ k2, k2 ≠ k →
          lookupK (RemoveByAccess s k).access k2 = lookupK s.access k2)
    ∧ ((RemoveByRefresh s k).basic = s.basic
      ∧ (RemoveByRefresh s k).access = s.access
      ∧ lookupK (RemoveByRefresh s k).refresh k = none
      ∧ ∀ k2, k2 ≠ k →
          lookupK (RemoveByRefresh s k).refresh k2 = lookupK s.refresh k2)
    ∧ (∀ (info jv : TokenInfo) (id : String) (s2 : Store),
        info.access ≠ "" → info.refresh ≠ "" → id ≠ "" → info.code ≠ id →
        Create emptyStore info (Except.ok jv) id = CreateRes.ret none s2 →
        GetByAccess (RemoveByAccess s2 info.access) info.access = (none, none)
        ∧ GetByRefresh (RemoveByAccess s2 info.access) info.refresh =
            (some jv, none)) := by
  refine ⟨⟨rfl, rfl, collDelete_lookup_self _ _ hb,
      fun k2 hk2 => collDelete_lookup_ne _ _ _ hk2⟩,
    ⟨rfl, rfl, collDelete_lookup_self _ _ hacc,
      fun k2 hk2 => collDelete_lookup_ne _ _ _ hk2⟩,
    ⟨rfl, rfl, collDelete_lookup_self _ _ href,
      fun k2 hk2 => collDelete_lookup_ne _ _ _ hk2⟩, ?_⟩
  intro info jv id s2 ha hr hid hic hcr
  rw [Create_ok_eq emptyStore info jv id (fun _ => rfl) rfl hic
    (fun _ => rfl) (fun _ => rfl)] at hcr
  injection hcr with h1 h2
  subst h2
  constructor
  · by_cases hc : info.code ≠ "" <;>
      simp [RemoveByAccess, GetByAccess, getBasicID, getData, collDelete,
        lookupK, ha, hr, hid, hc]
  · by_cases hc : info.code ≠ "" <;>
      simp [RemoveByAccess, GetByRefresh, getBasicID, getData, collDelete,
        lookupK, ha, hr, hid, hc]

/-- Witness for the C9 theorem on the store `storeW` with key `"a0"`. -/
theorem Remove_deletes_only_own_key_witness :
    ((RemoveByCode storeW "a0").access = storeW.access
      ∧ (RemoveByCode storeW "a0").refresh = storeW.refresh
      ∧ lookupK (RemoveByCode storeW "a0").basic "a0" = none
      ∧ ∀ k2, k2 ≠ "a0" →
          lookupK (RemoveByCode storeW "a0").basic k2 = lookupK storeW.basic k2)
    ∧ ((RemoveByAccess storeW "a0").basic = storeW.basic
      ∧ (RemoveByAccess storeW "a0").refresh = storeW.refresh
      ∧ lookupK (RemoveByAccess storeW "a0").access "a0" = none
      ∧ ∀ k2, k2 ≠ "a0" →
          lookupK (RemoveByAccess storeW "a0").access k2 = lookupK storeW.access k2)
    ∧ ((RemoveByRefresh storeW "a0").basic = storeW.basic
      ∧ (RemoveByRefresh storeW "a0").access = storeW.access
      ∧ lookupK (RemoveByRefresh storeW "a0").refresh "a0" = none
      ∧ ∀ k2, k2 ≠ "a0" →
          lookupK (RemoveByRefresh storeW "a0").refresh k2 = lookupK storeW.refresh k2)
    ∧ (∀ (info jv : TokenInfo) (id : String) (s2 : Store),
        info.access ≠ "" → info.refresh ≠ "" → id ≠ "" → info.code ≠ id →
        Create emptyStore info (Except.ok jv) id = CreateRes.ret none s2 →
        GetByAccess (RemoveByAccess s2 info.access) info.access = (none, none)
        ∧ GetByRefresh (RemoveByAccess s2 info.access) info.refresh =
            (some jv, none)) :=
  Remove_deletes_only_own_key storeW "a0" (by decide) (by decide) (by decide)

/-- C10: store operations never modify an existing record in place:
`Create` — in every outcome, including process death on a duplicate-key
write error — preserves every record present beforehand, so a second
`Create` reusing a stored code, access-token, or refresh-token key
fails on the duplicate insert without replacing the earlier record; and
each `Remove` either preserves a pre-existing record unchanged or
deletes it, never replacing it by a different record. -/
theorem store_no_in_place_update (s : Store) (info : TokenInfo)
    (jr : Except String TokenInfo) (id k : String)
    (hb : (s.basic.map Prod.fst).Nodup)
    (hacc : (s.access.map Prod.fst).Nodup)
    (href : (s.refresh.map Prod.fst).Nodup) :
    (∀ vb : BasicRec, lookupK s.basic k = some vb →
      lookupK (endState (Create s info jr id)).basic k = some vb)
    ∧ (∀ vt : TokenRec, lookupK s.access k = some vt →
      lookupK (endState (Create s info jr id)).access k = some vt)
    ∧ (∀ vt : TokenRec, lookupK s.refresh k = some vt →
      lookupK (endState (Create s info jr id)).refresh k = some vt)
    ∧ (∀ (k2 : String) (vb : BasicRec), lookupK s.basic k = some vb →
        lookupK (RemoveByCode s k2).basic k = some vb
        ∨ lookupK (RemoveByCode s k2).basic k = none)
    ∧ (∀ (k2 : String) (vt : TokenRec), lookupK s.access k = some vt →
        lookupK (RemoveByAccess s k2).access k = some vt
        ∨ lookupK (RemoveByAccess s k2).access k = none)
    ∧ (∀ (k2 : String) (vt : TokenRec), lookupK s.refresh k = some vt →
        lookupK (RemoveByRefresh s k2).refresh k = some vt
        ∨ lookupK (RemoveByRefresh s k2).refresh k = none) := by
  obtain ⟨p1, p2, p3⟩ := Create_preserves s info jr id k
  refine ⟨p1, p2, p3, ?_, ?_, ?_⟩
  · intro k2 vb h
    by_cases hk : k = k2
    · subst hk
      right
      exact collDelete_lookup_self _ _ hb
    · left
      show lookupK (collDelete s.basic k2) k = some vb
      rw [collDelete_lookup_ne s.basic k2 k hk]
      exact h
  · intro k2 vt h
    by_cases hk : k = k2
    · subst hk
      right
      exact collDelete_lookup_self _ _ hacc
    · left
      show lookupK (collDelete s.access k2) k = some vt
      rw [collDelete_lookup_ne s.access k2 k hk]
      exact h
  · intro k2 vt h
    by_cases hk : k = k2
    · subst hk
      right
      exact collDelete_lookup_self _ _ href
    · left
      show lookupK (collDelete s.refresh k2) k = some vt
      rw [collDelete_lookup_ne s.refresh k2 k hk]
      exact h

/-- Witness for the C10 theorem on the store `storeW`. -/
theorem store_no_in_place_update_witness :
    (∀ vb : BasicRec, lookupK storeW.basic "c0" = some vb →
      lookupK (endState (Create storeW infoDup (Except.ok infoDup) "zz")).basic
        "c0" = some vb)
    ∧ (∀ vt : TokenRec, lookupK storeW.access "c0" = some vt →
      lookupK (endState (Create storeW infoDup (Except.ok infoDup) "zz")).access
        "c0" = some vt)
    ∧ (∀ vt : TokenRec, lookupK storeW.refresh "c0" = some vt →
      lookupK (endState (Create storeW infoDup (Except.ok infoDup) "zz")).refresh
        "c0" = some vt)
    ∧ (∀ (k2 : String) (vb : BasicRec), lookupK storeW.basic "c0" = some vb →
        lookupK (RemoveByCode storeW k2).basic "c0" = some vb
        ∨ lookupK (RemoveByCode storeW k2).basic "c0" = none)
    ∧ (∀ (k2 : String) (vt : TokenRec), lookupK storeW.access "c0" = some vt →
        lookupK (RemoveByAccess storeW k2).access "c0" = some vt
        ∨ lookupK (RemoveByAccess storeW k2).access "c0" = none)
    ∧ (∀ (k2 : String) (vt : TokenRec), lookupK storeW.refresh "c0" = some vt →
        lookupK (RemoveByRefresh storeW k2).refresh "c0" = some vt
        ∨ lookupK (RemoveByRefresh storeW k2).refresh "c0" = none) :=
  store_no_in_place_update storeW infoDup (Except.ok infoDup) "zz" "c0"
    (by decide) (by decide) (by decide)

end Oauth2Mongo
